import Mathlib

/-!
Verification development for the Flappy-Bird-Multiplayer repository
(single source file src/index.tsx).

The relevant program fragments are shallowly embedded below:

* numeric game quantities (positions, velocities, sizes, speeds) are
  embedded as rationals;
* the bird rotation is stored by the source in radians, and every value
  the source ever assigns or compares it against is of the form
  c * (pi / 180) for a rational constant c (the clamps, the rotation
  increments, and the jump snap).  Since pi / 180 > 0, the map
  r = c * (pi / 180) <-> c is an exact order isomorphism on all values
  involved, so rotations are embedded by their coefficient c
  (informally: measured in degrees);
* wire messages, which in the source are dynamically typed JSON records,
  are embedded as association lists from field names to a JS-value type
  with an explicit undefined value (reading an absent field of a JS
  object yields undefined);
* the multiplayer game-over reconciliation, which in the source is
  spread over the die / checkMultiplayerGameOver / finishMultiplayerGame
  functions plus two polling effects, is embedded as a small transition
  system whose events are processed atomically in sequence, matching the
  single-threaded execution model of the program.
-/

namespace FlappyLink

/-! ### Constants (src/index.tsx lines 18-39) -/

def LOGICAL_WIDTH : ℚ := 480
def LOGICAL_HEIGHT : ℚ := 800

def GRAVITY : ℚ := 42 / 100
def JUMP : ℚ := -8
def PIPE_SPEED : ℚ := 7 / 2
def PIPE_WIDTH : ℚ := 64
def PIPE_GAP : ℚ := 160

def BIRD_WIDTH : ℚ := 42
def BIRD_HEIGHT : ℚ := 30
def HITBOX_WIDTH : ℚ := 30
def HITBOX_HEIGHT : ℚ := 24
def GROUND_HEIGHT : ℚ := 120

/-- Rotation constants, in units of pi / 180 (see header comment):
the source has MAX_ROTATION = 90 * (Math.PI / 180). -/
def MAX_ROTATION : ℚ := 90

/-- Source: MIN_ROTATION = -25 * (Math.PI / 180). -/
def MIN_ROTATION : ℚ := -25

/-- Source: ROTATION_SPEED = 6 * (Math.PI / 180). -/
def ROTATION_SPEED : ℚ := 6

/-- Fixed horizontal bird position, line 472: LOGICAL_WIDTH * 0.3. -/
def birdX : ℚ := LOGICAL_WIDTH * (3 / 10)

/-! ### Multiplayer outcome resolution (lines 561-636)

The fragment of the mutable game state that the die /
checkMultiplayerGameOver / finishMultiplayerGame functions and the
GAMEOVER_SYNC handler read and write.  The two React effects at lines
603-622 re-run the both-dead check (gameState PLAYING, local bird dead,
opponent dead) on state changes and on a fixed interval; they are
embedded as a poll event that may fire any number of times between the
other events.  resolveCount instruments how many times outcome
resolution (finishMultiplayerGame) has run; it is not part of the
program state. -/

inductive Winner where
  | YOU
  | OPPONENT
  | DRAW
deriving DecidableEq, Repr

inductive GameMode where
  | MENU
  | LOBBY
  | JOINING
  | COUNTDOWN
  | PLAYING
  | GAMEOVER
deriving DecidableEq, Repr

structure MPState where
  mode : GameMode
  birdDead : Bool
  birdScore : ℕ
  oppDead : Bool
  oppScore : ℕ
  finalScore : ℕ
  opponentScore : ℕ
  winner : Option Winner
  resolveCount : ℕ
deriving DecidableEq, Repr

/-- Lines 624-636: record both final scores, compute the winner by
comparing them, and enter GAMEOVER. -/
def finishMultiplayerGame (s : MPState) : MPState :=
  { s with
    finalScore := s.birdScore
    opponentScore := s.oppScore
    winner :=
      if s.birdScore > s.oppScore then some Winner.YOU
      else if s.birdScore < s.oppScore then some Winner.OPPONENT
      else some Winner.DRAW
    mode := GameMode.GAMEOVER
    resolveCount := s.resolveCount + 1 }

/-- Lines 589-600: once the local bird is dead, finish if the opponent
is also dead, otherwise keep waiting. -/
def checkMultiplayerGameOver (s : MPState) : MPState :=
  if s.oppDead then finishMultiplayerGame s else s

/-- Lines 561-587, multiplayer branch: die is a no-op on an already-dead
bird; otherwise it marks the bird dead, sends the final UPDATE and the
GAMEOVER_SYNC message (network effects outside this state fragment), and
runs checkMultiplayerGameOver. -/
def die (s : MPState) : MPState :=
  if s.birdDead then s
  else checkMultiplayerGameOver { s with birdDead := true }

/-- Lines 346-350: the GAMEOVER_SYNC handler records the authoritative
opponent score and marks the opponent dead. -/
def recvGameoverSync (sc : ℕ) (s : MPState) : MPState :=
  { s with oppScore := sc, oppDead := true }

/-- Lines 603-622: both polling effects finish the game exactly when the
mode is still PLAYING and both birds are dead. -/
def pollGameOver (s : MPState) : MPState :=
  if s.mode = GameMode.PLAYING ∧ s.birdDead = true ∧ s.oppDead = true then
    finishMultiplayerGame s
  else s

inductive MPEvent where
  | localDeath
  | gameoverSync (sc : ℕ)
  | poll

def mpStep (e : MPEvent) (s : MPState) : MPState :=
  match e with
  | MPEvent.localDeath => die s
  | MPEvent.gameoverSync sc => recvGameoverSync sc s
  | MPEvent.poll => pollGameOver s

def mpRun (es : List MPEvent) (s : MPState) : MPState :=
  es.foldl (fun t e => mpStep e t) s

/-- Spec-style winner function, for comparison with the code path. -/
def computeWinner (myScore opScore : ℕ) : Winner :=
  if myScore > opScore then Winner.YOU
  else if myScore < opScore then Winner.OPPONENT
  else Winner.DRAW

/-- A mid-match multiplayer state with the given two live scores. -/
def mpAt (myScore opScore : ℕ) : MPState :=
  { mode := GameMode.PLAYING
    birdDead := true
    birdScore := myScore
    oppDead := true
    oppScore := opScore
    finalScore := 0
    opponentScore := 0
    winner := none
    resolveCount := 0 }

/-- C1: multiplayer outcome resolution computes YOU exactly when the
local score is strictly greater, OPPONENT exactly when strictly less,
DRAW exactly when equal; in particular scores (5,5) give DRAW, (7,3)
give YOU, and (2,6) give OPPONENT. -/
theorem winner_trichotomy (s : MPState) :
    ((finishMultiplayerGame s).winner = some Winner.YOU ↔
      s.birdScore > s.oppScore) ∧
    ((finishMultiplayerGame s).winner = some Winner.OPPONENT ↔
      s.birdScore < s.oppScore) ∧
    ((finishMultiplayerGame s).winner = some Winner.DRAW ↔
      s.birdScore = s.oppScore) ∧
    (finishMultiplayerGame (mpAt 5 5)).winner = some Winner.DRAW ∧
    (finishMultiplayerGame (mpAt 7 3)).winner = some Winner.YOU ∧
    (finishMultiplayerGame (mpAt 2 6)).winner = some Winner.OPPONENT := by
  refine ⟨?_, ?_, ?_, by decide, by decide, by decide⟩ <;>
    simp only [finishMultiplayerGame] <;> split_ifs with h1 h2 <;>
      simp <;> omega

/-- A multiplayer state in which both birds are still alive. -/
def mpLive : MPState :=
  { mode := GameMode.PLAYING
    birdDead := false
    birdScore := 4
    oppDead := false
    oppScore := 0
    finalScore := 0
    opponentScore := 0
    winner := none
    resolveCount := 0 }

/-- C2: processing the local death and the opponent GAMEOVER_SYNC in
either order (each followed by the both-dead poll that the program runs
on every step) yields the identical final state, with the same winner
and the same recorded finalScore and opponentScore, and outcome
resolution runs exactly once. -/
theorem dual_death_commutes (s : MPState) (sc : ℕ)
    (hm : s.mode = GameMode.PLAYING) (hb : s.birdDead = false)
    (ho : s.oppDead = false) (hc : s.resolveCount = 0) :
    mpRun [MPEvent.localDeath, MPEvent.poll,
           MPEvent.gameoverSync sc, MPEvent.poll] s =
      mpRun [MPEvent.gameoverSync sc, MPEvent.poll,
             MPEvent.localDeath, MPEvent.poll] s ∧
    (mpRun [MPEvent.localDeath, MPEvent.poll,
            MPEvent.gameoverSync sc, MPEvent.poll] s).winner =
      some (computeWinner s.birdScore sc) ∧
    (mpRun [MPEvent.localDeath, MPEvent.poll,
            MPEvent.gameoverSync sc, MPEvent.poll] s).finalScore =
      s.birdScore ∧
    (mpRun [MPEvent.localDeath, MPEvent.poll,
            MPEvent.gameoverSync sc, MPEvent.poll] s).opponentScore = sc ∧
    (mpRun [MPEvent.localDeath, MPEvent.poll,
            MPEvent.gameoverSync sc, MPEvent.poll] s).resolveCount = 1 := by
  obtain ⟨mode, bd, bs, od, os, fs, ops, w, rc⟩ := s
  simp only [MPState.mk.injEq] at hm hb ho hc ⊢
  subst hm; subst hb; subst ho; subst hc
  simp [mpRun, mpStep, die, checkMultiplayerGameOver, pollGameOver,
    recvGameoverSync, finishMultiplayerGame, computeWinner]
  split_ifs <;> rfl

/-- Witness for C2 at a concrete live state and opponent score 9. -/
theorem dual_death_commutes_witness :
    mpRun [MPEvent.localDeath, MPEvent.poll,
           MPEvent.gameoverSync 9, MPEvent.poll] mpLive =
      mpRun [MPEvent.gameoverSync 9, MPEvent.poll,
             MPEvent.localDeath, MPEvent.poll] mpLive ∧
    (mpRun [MPEvent.localDeath, MPEvent.poll,
            MPEvent.gameoverSync 9, MPEvent.poll] mpLive).winner =
      some (computeWinner mpLive.birdScore 9) ∧
    (mpRun [MPEvent.localDeath, MPEvent.poll,
            MPEvent.gameoverSync 9, MPEvent.poll] mpLive).finalScore =
      mpLive.birdScore ∧
    (mpRun [MPEvent.localDeath, MPEvent.poll,
            MPEvent.gameoverSync 9, MPEvent.poll] mpLive).opponentScore = 9 ∧
    (mpRun [MPEvent.localDeath, MPEvent.poll,
            MPEvent.gameoverSync 9, MPEvent.poll] mpLive).resolveCount = 1 :=
  dual_death_commutes mpLive 9 rfl rfl rfl rfl

/-! ### Pipes, collision and scoring (lines 9-14 and 466-495)

PipeData mirrors the interface at lines 9-14: x is the leading edge,
y is the Y position of the bottom of the top pipe (the spec calls this
gapTop), passed is the scoring flag, id the host-assigned counter. -/

structure PipeData where
  x : ℚ
  y : ℚ
  passed : Bool
  id : ℕ
deriving DecidableEq, Repr

/-- Lines 475-483: the nested axis-aligned collision check run for one
pipe; true exactly when this pipe calls die this step.  birdY is the
local bird vertical position, the pipe is taken at its current x. -/
def pipeTriggersDeath (birdY : ℚ) (p : PipeData) : Bool :=
  if birdX + HITBOX_WIDTH / 2 > p.x ∧ birdX - HITBOX_WIDTH / 2 < p.x + PIPE_WIDTH then
    if birdY - HITBOX_HEIGHT / 2 < p.y ∨ birdY + HITBOX_HEIGHT / 2 > p.y + PIPE_GAP then
      true
    else false
  else false

/-- Spec-style predicate: the bird hitbox horizontally overlaps the
pipe body span. -/
def horizOverlap (p : PipeData) : Prop :=
  birdX + HITBOX_WIDTH / 2 > p.x ∧ birdX - HITBOX_WIDTH / 2 < p.x + PIPE_WIDTH

/-- Spec-style predicate: the bird hitbox top is above gapTop, or its
bottom is below gapTop + gapHeight. -/
def verticalMiss (birdY : ℚ) (p : PipeData) : Prop :=
  birdY - HITBOX_HEIGHT / 2 < p.y ∨ birdY + HITBOX_HEIGHT / 2 > p.y + PIPE_GAP

/-- Spec-style predicate: the bird hitbox lies fully inside the gap. -/
def fullyInsideGap (birdY : ℚ) (p : PipeData) : Prop :=
  p.y ≤ birdY - HITBOX_HEIGHT / 2 ∧ birdY + HITBOX_HEIGHT / 2 ≤ p.y + PIPE_GAP

/-- C3: a pipe triggers death iff the hitbox horizontally overlaps the
pipe body and the hitbox top is above gapTop or its bottom is below
gapTop + gapHeight; with horizontal overlap but the hitbox fully inside
the gap, no death is triggered. -/
theorem collision_characterization (birdY : ℚ) (p : PipeData) :
    (pipeTriggersDeath birdY p = true ↔ horizOverlap p ∧ verticalMiss birdY p) ∧
    (horizOverlap p → fullyInsideGap birdY p → pipeTriggersDeath birdY p = false) := by
  constructor
  · unfold pipeTriggersDeath horizOverlap verticalMiss
    split_ifs with h1 h2 <;> simp_all
  · intro hov hin
    unfold horizOverlap at hov
    unfold fullyInsideGap at hin
    have hn : ¬(birdY - HITBOX_HEIGHT / 2 < p.y ∨
        birdY + HITBOX_HEIGHT / 2 > p.y + PIPE_GAP) := by
      push_neg
      exact ⟨hin.1, hin.2⟩
    unfold pipeTriggersDeath
    rw [if_pos hov, if_neg hn]

/-- Witness for C3: a pipe overlapping the bird horizontally, with the
bird fully inside the gap, triggers no death. -/
theorem collision_characterization_witness :
    pipeTriggersDeath 380 { x := 140, y := 300, passed := false, id := 0 } = false :=
  (collision_characterization 380 { x := 140, y := 300, passed := false, id := 0 }).2
    (by constructor <;> norm_num [birdX, HITBOX_WIDTH, LOGICAL_WIDTH, PIPE_WIDTH])
    (by constructor <;> norm_num [HITBOX_HEIGHT, PIPE_GAP])

/-- Line 468: a pipe advances leftward by PIPE_SPEED only while the
local bird is alive. -/
def movePipeX (dead : Bool) (p : PipeData) : PipeData :=
  if dead then p else { p with x := p.x - PIPE_SPEED }

/-- Lines 467-490: the forEach body for one pipe in one simulation step:
move the pipe (if the bird is alive), run the collision check at the new
position, and perform the passed-flag / score update.  Returns the
updated pipe, the updated local score, and whether this pipe called die
this step.  The score is embedded as an integer so that its
non-negativity is a statement, not a typing artifact. -/
def stepPipeScore (dead : Bool) (birdY : ℚ) (p : PipeData) (score : ℤ) :
    PipeData × ℤ × Bool :=
  let p1 := movePipeX dead p
  let hit := pipeTriggersDeath birdY p1
  if p1.passed = false ∧ p1.x + PIPE_WIDTH < birdX - HITBOX_WIDTH / 2 then
    ({ p1 with passed := true }, score + 1, hit)
  else (p1, score, hit)

/-- Iterated per-step evolution of one pipe together with the local
score, over a list of per-step inputs (bird dead flag, bird y). -/
def runPipe : PipeData → ℤ → List (Bool × ℚ) → PipeData × ℤ
  | p, s, [] => (p, s)
  | p, s, (d, yb) :: rest =>
      let r := stepPipeScore d yb p s
      runPipe r.1 r.2.1 rest

theorem movePipeX_passed (d : Bool) (p : PipeData) :
    (movePipeX d p).passed = p.passed := by
  unfold movePipeX
  split_ifs <;> rfl

theorem stepPipeScore_eq (d : Bool) (yb : ℚ) (p : PipeData) (s : ℤ) :
    stepPipeScore d yb p s =
      if (movePipeX d p).passed = false ∧
          (movePipeX d p).x + PIPE_WIDTH < birdX - HITBOX_WIDTH / 2 then
        ({ movePipeX d p with passed := true }, s + 1,
          pipeTriggersDeath yb (movePipeX d p))
      else
        (movePipeX d p, s, pipeTriggersDeath yb (movePipeX d p)) := rfl

theorem stepPipeScore_pos (d : Bool) (yb : ℚ) (p : PipeData) (s : ℤ)
    (h : (movePipeX d p).passed = false ∧
      (movePipeX d p).x + PIPE_WIDTH < birdX - HITBOX_WIDTH / 2) :
    stepPipeScore d yb p s =
      (PipeData.mk (movePipeX d p).x (movePipeX d p).y true (movePipeX d p).id,
        s + 1, pipeTriggersDeath yb (movePipeX d p)) := by
  rw [stepPipeScore_eq, if_pos h]

theorem stepPipeScore_neg (d : Bool) (yb : ℚ) (p : PipeData) (s : ℤ)
    (h : ¬((movePipeX d p).passed = false ∧
      (movePipeX d p).x + PIPE_WIDTH < birdX - HITBOX_WIDTH / 2)) :
    stepPipeScore d yb p s =
      (movePipeX d p, s, pipeTriggersDeath yb (movePipeX d p)) := by
  rw [stepPipeScore_eq, if_neg h]

theorem runPipe_of_passed (p : PipeData) (s : ℤ) (l : List (Bool × ℚ))
    (hp : p.passed = true) :
    (runPipe p s l).1.passed = true ∧ (runPipe p s l).2 = s := by
  induction l generalizing p s with
  | nil => exact ⟨hp, rfl⟩
  | cons hd tl ih =>
      obtain ⟨d, yb⟩ := hd
      have hstep : stepPipeScore d yb p s =
          (movePipeX d p, s, pipeTriggersDeath yb (movePipeX d p)) :=
        stepPipeScore_neg d yb p s (by rw [movePipeX_passed, hp]; simp)
      show (runPipe (stepPipeScore d yb p s).1 (stepPipeScore d yb p s).2.1 tl).1.passed = true ∧
        (runPipe (stepPipeScore d yb p s).1 (stepPipeScore d yb p s).2.1 tl).2 = s
      rw [hstep]
      exact ih _ _ (by rw [movePipeX_passed, hp])

theorem runPipe_score_of_unpassed (p : PipeData) (s : ℤ) (l : List (Bool × ℚ))
    (hp : p.passed = false) :
    (runPipe p s l).2 = s + (if (runPipe p s l).1.passed = true then 1 else 0) := by
  induction l generalizing p s with
  | nil =>
      show s = s + (if p.passed = true then 1 else 0)
      rw [hp]
      simp
  | cons hd tl ih =>
      obtain ⟨d, yb⟩ := hd
      show (runPipe (stepPipeScore d yb p s).1 (stepPipeScore d yb p s).2.1 tl).2 =
        s + (if (runPipe (stepPipeScore d yb p s).1 (stepPipeScore d yb p s).2.1 tl).1.passed = true
          then 1 else 0)
      by_cases h : (movePipeX d p).passed = false ∧
          (movePipeX d p).x + PIPE_WIDTH < birdX - HITBOX_WIDTH / 2
      · rw [stepPipeScore_pos d yb p s h]
        dsimp only
        have hres := runPipe_of_passed
          (PipeData.mk (movePipeX d p).x (movePipeX d p).y true (movePipeX d p).id)
          (s + 1) tl rfl
        rw [hres.2, if_pos hres.1]
      · rw [stepPipeScore_neg d yb p s h]
        dsimp only
        exact ih (movePipeX d p) s (by rw [movePipeX_passed, hp])

/-- C4: in one step the passed flag ends set iff it was already set or
the moved pipe trailing edge is strictly left of the bird hitbox leading
edge, and the score gains exactly 1 on the false-to-true transition and
is unchanged otherwise; across any run of steps a set flag stays set and
contributes no further score, the total score change is exactly the 0/1
flag transition, and the score stays a non-negative integer. -/
theorem passed_flag_spec (p : PipeData) (s : ℤ) (d : Bool) (yb : ℚ)
    (l : List (Bool × ℚ)) (hs : 0 ≤ s) :
    ((stepPipeScore d yb p s).1.passed = true ↔
      p.passed = true ∨
        (stepPipeScore d yb p s).1.x + PIPE_WIDTH < birdX - HITBOX_WIDTH / 2) ∧
    ((stepPipeScore d yb p s).2.1 =
      if p.passed = false ∧ (stepPipeScore d yb p s).1.passed = true then s + 1
      else s) ∧
    (p.passed = true → (runPipe p s l).1.passed = true ∧ (runPipe p s l).2 = s) ∧
    (p.passed = false →
      (runPipe p s l).2 =
        s + (if (runPipe p s l).1.passed = true then 1 else 0)) ∧
    0 ≤ (runPipe p s l).2 := by
  refine ⟨?_, ?_, fun hp => runPipe_of_passed p s l hp,
    fun hp => runPipe_score_of_unpassed p s l hp, ?_⟩
  · by_cases h : (movePipeX d p).passed = false ∧
        (movePipeX d p).x + PIPE_WIDTH < birdX - HITBOX_WIDTH / 2
    · rw [stepPipeScore_pos d yb p s h]
      dsimp only
      simp only [true_iff]
      exact Or.inr h.2
    · rw [stepPipeScore_neg d yb p s h]
      dsimp only
      rw [movePipeX_passed]
      rw [movePipeX_passed] at h
      constructor
      · exact fun hpass => Or.inl hpass
      · rintro (hpass | hlt)
        · exact hpass
        · cases hpf : p.passed
          · exact absurd ⟨hpf, hlt⟩ h
          · rfl
  · by_cases h : (movePipeX d p).passed = false ∧
        (movePipeX d p).x + PIPE_WIDTH < birdX - HITBOX_WIDTH / 2
    · rw [stepPipeScore_pos d yb p s h]
      dsimp only
      rw [if_pos ⟨by rw [← movePipeX_passed d p]; exact h.1, rfl⟩]
    · rw [stepPipeScore_neg d yb p s h]
      dsimp only
      rw [if_neg]
      rintro ⟨h1, h2⟩
      rw [movePipeX_passed, h1] at h2
      exact Bool.false_ne_true h2
  · cases hpf : p.passed
    · rw [runPipe_score_of_unpassed p s l hpf]
      split_ifs <;> omega
    · rw [(runPipe_of_passed p s l hpf).2]
      exact hs

/-- Witness for C4 at a concrete pipe, score and run. -/
theorem passed_flag_spec_witness :
    ((stepPipeScore false 400 { x := 60, y := 300, passed := false, id := 2 } 3).1.passed = true ↔
      ({ x := 60, y := 300, passed := false, id := 2 } : PipeData).passed = true ∨
        (stepPipeScore false 400 { x := 60, y := 300, passed := false, id := 2 } 3).1.x + PIPE_WIDTH <
          birdX - HITBOX_WIDTH / 2) ∧
    ((stepPipeScore false 400 { x := 60, y := 300, passed := false, id := 2 } 3).2.1 =
      if ({ x := 60, y := 300, passed := false, id := 2 } : PipeData).passed = false ∧
          (stepPipeScore false 400 { x := 60, y := 300, passed := false, id := 2 } 3).1.passed = true then
        3 + 1
      else 3) ∧
    (({ x := 60, y := 300, passed := false, id := 2 } : PipeData).passed = true →
      (runPipe { x := 60, y := 300, passed := false, id := 2 } 3 [(false, 400)]).1.passed = true ∧
        (runPipe { x := 60, y := 300, passed := false, id := 2 } 3 [(false, 400)]).2 = 3) ∧
    (({ x := 60, y := 300, passed := false, id := 2 } : PipeData).passed = false →
      (runPipe { x := 60, y := 300, passed := false, id := 2 } 3 [(false, 400)]).2 =
        3 + (if (runPipe { x := 60, y := 300, passed := false, id := 2 } 3 [(false, 400)]).1.passed = true
          then 1 else 0)) ∧
    0 ≤ (runPipe { x := 60, y := 300, passed := false, id := 2 } 3 [(false, 400)]).2 :=
  passed_flag_spec { x := 60, y := 300, passed := false, id := 2 } 3 false 400
    [(false, 400)] (by norm_num)

/-! ### Local bird physics (lines 220-221 and 417-446)

One fixed physics step with no jump input: gravity, vertical motion,
the rotation update, the lethal floor clamp and the non-lethal ceiling
clamp.  Rotation is in units of pi / 180 (see header comment); the
literal decrement 10 * (Math.PI / 180) at line 426 becomes 10. -/

structure Bird where
  y : ℚ
  velocity : ℚ
  rotation : ℚ
  dead : Bool
  score : ℤ
deriving DecidableEq, Repr

def stepBirdPhysics (b : Bird) : Bird :=
  let v := b.velocity + GRAVITY
  let y1 := b.y + v
  let r :=
    if v < 5 then
      if b.rotation > MIN_ROTATION then
        if b.rotation - 10 < MIN_ROTATION then MIN_ROTATION else b.rotation - 10
      else b.rotation
    else
      if b.rotation + ROTATION_SPEED > MAX_ROTATION then MAX_ROTATION
      else b.rotation + ROTATION_SPEED
  let hitFloor : Prop := y1 + HITBOX_HEIGHT / 2 ≥ LOGICAL_HEIGHT - GROUND_HEIGHT
  let y2 := if hitFloor then LOGICAL_HEIGHT - GROUND_HEIGHT - HITBOX_HEIGHT / 2 else y1
  let dead2 := if hitFloor then true else b.dead
  let hitCeiling : Prop := y2 - HITBOX_HEIGHT / 2 ≤ 0
  let y3 := if hitCeiling then HITBOX_HEIGHT / 2 else y2
  let v3 := if hitCeiling then (0 : ℚ) else v
  { y := y3, velocity := v3, rotation := r, dead := dead2, score := b.score }

theorem stepBirdPhysics_rotation (b : Bird) :
    (stepBirdPhysics b).rotation =
      if b.velocity + GRAVITY < 5 then
        if b.rotation > MIN_ROTATION then
          if b.rotation - 10 < MIN_ROTATION then MIN_ROTATION else b.rotation - 10
        else b.rotation
      else
        if b.rotation + ROTATION_SPEED > MAX_ROTATION then MAX_ROTATION
        else b.rotation + ROTATION_SPEED := rfl

/-- The initial bird state of the program (line 221). -/
def initialBird : Bird :=
  { y := LOGICAL_HEIGHT / 2, velocity := 0, rotation := 0, dead := false, score := 0 }

/-- C5 counterexample: from the initial bird state (rotation 0, inside
the clamp interval) a single no-jump physics step strictly decreases the
rotation, because the post-gravity velocity 0.42 is below the threshold
5 and the rotation is driven toward MIN_ROTATION, not MAX_ROTATION; so
the rotation is not non-decreasing step to step. -/
theorem rotation_not_monotone :
    MIN_ROTATION ≤ initialBird.rotation ∧
    initialBird.rotation ≤ MAX_ROTATION ∧
    (stepBirdPhysics initialBird).rotation < initialBird.rotation := by
  refine ⟨?_, ?_, ?_⟩ <;>
    norm_num [initialBird, stepBirdPhysics, MIN_ROTATION, MAX_ROTATION,
      ROTATION_SPEED, GRAVITY, HITBOX_HEIGHT, LOGICAL_HEIGHT, GROUND_HEIGHT]

theorem stepBirdPhysics_rotation_mem (b : Bird)
    (h1 : MIN_ROTATION ≤ b.rotation) (h2 : b.rotation ≤ MAX_ROTATION) :
    MIN_ROTATION ≤ (stepBirdPhysics b).rotation ∧
      (stepBirdPhysics b).rotation ≤ MAX_ROTATION := by
  rw [stepBirdPhysics_rotation]
  simp only [MIN_ROTATION, MAX_ROTATION, ROTATION_SPEED] at h1 h2 ⊢
  split_ifs <;> constructor <;> linarith

/-- C5 amended: starting from rotation inside the clamp interval, any
number of no-jump physics steps keeps the rotation inside the interval;
and in every step whose post-gravity velocity is at least the threshold
5, the rotation is non-decreasing and never exceeds MAX_ROTATION (it is
driven toward MAX_ROTATION); when the post-gravity velocity is below the
threshold the rotation is instead driven toward MIN_ROTATION. -/
theorem rotation_bounds (b : Bird) (n : ℕ)
    (h1 : MIN_ROTATION ≤ b.rotation) (h2 : b.rotation ≤ MAX_ROTATION) :
    (MIN_ROTATION ≤ (stepBirdPhysics^[n] b).rotation ∧
      (stepBirdPhysics^[n] b).rotation ≤ MAX_ROTATION) ∧
    (5 ≤ b.velocity + GRAVITY →
      b.rotation ≤ (stepBirdPhysics b).rotation ∧
        (stepBirdPhysics b).rotation ≤ MAX_ROTATION) ∧
    (b.velocity + GRAVITY < 5 →
      (stepBirdPhysics b).rotation ≤ b.rotation) := by
  refine ⟨?_, ?_, ?_⟩
  · induction n with
    | zero => exact ⟨h1, h2⟩
    | succ k ih =>
        rw [Function.iterate_succ_apply']
        exact stepBirdPhysics_rotation_mem _ ih.1 ih.2
  · intro hv
    rw [stepBirdPhysics_rotation, if_neg (not_lt.mpr hv)]
    simp only [MAX_ROTATION, ROTATION_SPEED] at h2 ⊢
    split_ifs <;> constructor <;> linarith
  · intro hv
    rw [stepBirdPhysics_rotation, if_pos hv]
    simp only [MIN_ROTATION] at h1 ⊢
    split_ifs <;> linarith

/-- A bird falling fast enough to be past the dive threshold. -/
def divingBird : Bird :=
  { y := 400, velocity := 10, rotation := 0, dead := false, score := 0 }

/-- Witness for the amended C5 at a concrete fast-falling bird. -/
theorem rotation_bounds_witness :
    (MIN_ROTATION ≤ (stepBirdPhysics^[3] divingBird).rotation ∧
      (stepBirdPhysics^[3] divingBird).rotation ≤ MAX_ROTATION) ∧
    (5 ≤ divingBird.velocity + GRAVITY →
      divingBird.rotation ≤ (stepBirdPhysics divingBird).rotation ∧
        (stepBirdPhysics divingBird).rotation ≤ MAX_ROTATION) ∧
    (divingBird.velocity + GRAVITY < 5 →
      (stepBirdPhysics divingBird).rotation ≤ divingBird.rotation) :=
  rotation_bounds divingBird 3
    (by norm_num [divingBird, MIN_ROTATION])
    (by norm_num [divingBird, MAX_ROTATION])

/-! ### Wire messages and the message handler (lines 326-384 and 461)

Wire messages are dynamically typed JSON records in the source; they are
embedded as association lists from field names to JS values, with an
explicit undefined value: reading an absent field of a JS object yields
undefined.  The mirrored opponent fields and the fields of a pipe built
by the PIPE handler are JS values, because they are assigned directly
from received message fields. -/

inductive JVal where
  | num (q : ℚ)
  | str (s : String)
  | bool (b : Bool)
  | undef
deriving DecidableEq, Repr

abbrev Msg := List (String × JVal)

/-- JS property access: the value of the first binding of the field, or
undefined when the field is absent. -/
def jsGet (m : Msg) (k : String) : JVal :=
  match m.find? (fun kv => kv.1 == k) with
  | some kv => kv.2
  | none => JVal.undef

/-- The mirrored opponent state (line 222); every field that the UPDATE
and GAMEOVER_SYNC handlers assign from the network is a JS value. -/
structure OppMirror where
  y : JVal
  velocity : JVal
  rotation : JVal
  dead : JVal
  score : JVal
  connected : Bool
deriving DecidableEq, Repr

/-- A pipe as stored by the CLIENT PIPE handler (line 345): x is the
literal LOGICAL_WIDTH, passed the literal false, while y and id are
copied from the received message. -/
structure JPipe where
  x : ℚ
  y : JVal
  passed : Bool
  id : JVal
deriving DecidableEq, Repr

/-- The slice of the mutable game state (lines 220-229) read and written
by handleData, startGame and resetGame. -/
structure NetState where
  mode : GameMode
  bird : Bird
  opponent : OppMirror
  pipes : List JPipe
  started : Bool
  frames : ℕ
  lastPipeTime : ℚ
  groundOffset : ℚ
  pipeIdCounter : ℕ
deriving DecidableEq, Repr

/-- Lines 374-384: reset the local bird and the opponent mirror (keeping
the mirror velocity and connected flag), clear the pipes, zero frames
and groundOffset, and restamp lastPipeTime with the current time.  The
spread of the previous state keeps pipeIdCounter and started. -/
def resetGame (now : ℚ) (s : NetState) : NetState :=
  { s with
    bird := initialBird
    opponent :=
      { s.opponent with
        y := JVal.num (LOGICAL_HEIGHT / 2)
        rotation := JVal.num 0
        dead := JVal.bool false
        score := JVal.num 0 }
    pipes := []
    frames := 0
    lastPipeTime := now
    groundOffset := 0 }

/-- Lines 368-372: enter PLAYING, reset the simulation, mark started. -/
def startGame (now : ℚ) (s : NetState) : NetState :=
  { resetGame now { s with mode := GameMode.PLAYING } with started := true }

/-- Lines 326-351: the inbound message handler. -/
def handleData (now : ℚ) (data : Msg) (s : NetState) : NetState :=
  if jsGet data "type" = JVal.str "UPDATE" then
    { s with
      opponent :=
        { s.opponent with
          y := jsGet data "y"
          rotation := jsGet data "r"
          velocity := jsGet data "v"
          dead := jsGet data "dead"
          score := jsGet data "score" } }
  else if jsGet data "type" = JVal.str "PREPARE" then
    { s with mode := GameMode.COUNTDOWN }
  else if jsGet data "type" = JVal.str "START" then
    startGame now s
  else if jsGet data "type" = JVal.str "PIPE" then
    { s with
      pipes := s.pipes ++
        [{ x := LOGICAL_WIDTH, y := jsGet data "y", passed := false,
           id := jsGet data "id" }] }
  else if jsGet data "type" = JVal.str "GAMEOVER_SYNC" then
    { s with
      opponent :=
        { s.opponent with score := jsGet data "score", dead := JVal.bool true } }
  else
    s

/-- Line 461: the PIPE message the HOST sends for a freshly spawned
pipe; the gap position travels under the field name y. -/
def pipeMessage (pipeY : ℚ) (pipeId : ℕ) : Msg :=
  [("type", JVal.str "PIPE"), ("y", JVal.num pipeY), ("id", JVal.num pipeId)]

/-- A CLIENT state in the middle of a match with no pipes yet. -/
def clientPlaying : NetState :=
  { mode := GameMode.PLAYING
    bird := initialBird
    opponent :=
      { y := JVal.num (LOGICAL_HEIGHT / 2), velocity := JVal.num 0,
        rotation := JVal.num 0, dead := JVal.bool false, score := JVal.num 0,
        connected := true }
    pipes := []
    started := true
    frames := 0
    lastPipeTime := 0
    groundOffset := 0
    pipeIdCounter := 0 }

/-- C6 counterexample: the PIPE wire message built by the host carries
the gap position under the field name y, not gapTop (reading gapTop
yields undefined); and a PIPE message keyed gapTop = 300, id = 7,
received in a PLAYING client state, appends a pipe whose gap position is
undefined rather than 300. -/
theorem pipe_field_name_counterexample :
    jsGet (pipeMessage 300 7) "gapTop" = JVal.undef ∧
    jsGet (pipeMessage 300 7) "y" = JVal.num 300 ∧
    (handleData 0 [("type", JVal.str "PIPE"), ("gapTop", JVal.num 300),
        ("id", JVal.num 7)] clientPlaying).pipes =
      [{ x := LOGICAL_WIDTH, y := JVal.undef, passed := false,
         id := JVal.num 7 }] := by
  refine ⟨rfl, rfl, ?_⟩
  decide

/-- C6 amended: the PIPE wire payload carries the chosen gap position
under the field name y (not gapTop) and the pipe id under id; receiving
the PIPE message with y = 300, id = 7 while PLAYING (in particular as
CLIENT) appends exactly one pipe at the playfield right edge with gap
position 300, id 7, passed false. -/
theorem pipe_message_spec (s : NetState) (now g : ℚ) (i : ℕ)
    (_hmode : s.mode = GameMode.PLAYING) :
    jsGet (pipeMessage g i) "y" = JVal.num g ∧
    jsGet (pipeMessage g i) "id" = JVal.num i ∧
    handleData now (pipeMessage g i) s =
      { s with
        pipes := s.pipes ++
          [{ x := LOGICAL_WIDTH, y := JVal.num g, passed := false,
             id := JVal.num i }] } := by
  refine ⟨rfl, rfl, ?_⟩
  simp [handleData, pipeMessage, jsGet]

/-- Witness for the amended C6 in a concrete PLAYING client state. -/
theorem pipe_message_spec_witness :
    jsGet (pipeMessage 300 7) "y" = JVal.num 300 ∧
    jsGet (pipeMessage 300 7) "id" = JVal.num 7 ∧
    handleData 0 (pipeMessage 300 7) clientPlaying =
      { clientPlaying with
        pipes := clientPlaying.pipes ++
          [{ x := LOGICAL_WIDTH, y := JVal.num 300, passed := false,
             id := JVal.num 7 }] } :=
  pipe_message_spec clientPlaying 0 300 7 rfl

/-- C9: a received message whose type discriminator is none of UPDATE,
PREPARE, START, PIPE, GAMEOVER_SYNC leaves the entire game state (mode,
local bird, opponent mirror, pipes, scores) unchanged; the handler is
total, so the unexpected message is a silent no-op. -/
theorem unknown_message_noop (now : ℚ) (data : Msg) (s : NetState)
    (h : jsGet data "type" ∉
      ([JVal.str "UPDATE", JVal.str "PREPARE", JVal.str "START",
        JVal.str "PIPE", JVal.str "GAMEOVER_SYNC"] : List JVal)) :
    handleData now data s = s := by
  unfold handleData
  split_ifs with h1 h2 h3 h4 h5 <;> simp_all

/-- Witness for C9: a message of unknown type CHAT is a no-op. -/
theorem unknown_message_noop_witness :
    handleData 0 [("type", JVal.str "CHAT")] clientPlaying = clientPlaying :=
  unknown_message_noop 0 [("type", JVal.str "CHAT")] clientPlaying (by decide)

/-- C10: resetGame fully resets the local bird, clears the pipes, and
resets the opponent mirror y, rotation, dead and score, while the
opponent mirror velocity, the connected flag and the pipe id counter
keep their pre-reset values. -/
theorem resetGame_spec (s : NetState) (now : ℚ) :
    (resetGame now s).bird = initialBird ∧
    (resetGame now s).pipes = [] ∧
    (resetGame now s).opponent.y = JVal.num (LOGICAL_HEIGHT / 2) ∧
    (resetGame now s).opponent.rotation = JVal.num 0 ∧
    (resetGame now s).opponent.dead = JVal.bool false ∧
    (resetGame now s).opponent.score = JVal.num 0 ∧
    (resetGame now s).opponent.velocity = s.opponent.velocity ∧
    (resetGame now s).opponent.connected = s.opponent.connected ∧
    (resetGame now s).pipeIdCounter = s.pipeIdCounter := by
  refine ⟨rfl, rfl, rfl, rfl, rfl, rfl, rfl, rfl, rfl⟩

/-! ### Pipe list lifecycle on both sides (lines 450-495 and 345)

A combined model of the authority (HOST or SINGLE) pipe list, the
in-flight PIPE messages (the transport is reliable and ordered, so they
form a queue), and the CLIENT pipe list.  The spawn event abstracts the
time gating at line 451 and the random draw at lines 452-454 into a
parameter g; gating only restricts which events occur, so proving the
invariant for arbitrary event sequences covers the gated executions.
The move event moves a prefix of the list because the forEach at lines
467-490 stops advancing pipes once die fires mid-iteration (line 468
checks the dead flag per pipe). -/

structure SyncSys where
  hostPipes : List PipeData
  pipeIdCounter : ℕ
  queue : List (ℚ × ℕ)
  clientPipes : List PipeData
deriving DecidableEq, Repr

inductive Side where
  | host
  | client
deriving DecidableEq, Repr

def pipesOf (sd : Side) (s : SyncSys) : List PipeData :=
  match sd with
  | Side.host => s.hostPipes
  | Side.client => s.clientPipes

def setPipes (sd : Side) (s : SyncSys) (l : List PipeData) : SyncSys :=
  match sd with
  | Side.host => { s with hostPipes := l }
  | Side.client => { s with clientPipes := l }

/-- Lines 451-462: the authority appends a pipe at the right edge with
the next id from the monotonic counter, and the HOST sends the matching
PIPE message. -/
def spawnPipe (g : ℚ) (s : SyncSys) : SyncSys :=
  { s with
    hostPipes := s.hostPipes ++
      [{ x := LOGICAL_WIDTH, y := g, passed := false, id := s.pipeIdCounter }]
    pipeIdCounter := s.pipeIdCounter + 1
    queue := s.queue ++ [(g, s.pipeIdCounter)] }

/-- Line 345: the CLIENT appends the received pipe at the right edge. -/
def deliverPipe (s : SyncSys) : SyncSys :=
  match s.queue with
  | [] => s
  | (g, i) :: rest =>
      { s with
        queue := rest
        clientPipes := s.clientPipes ++
          [{ x := LOGICAL_WIDTH, y := g, passed := false, id := i }] }

/-- Line 468: each pipe advances leftward while the bird is alive; when
die fires mid-iteration the remaining pipes stay put that frame, so one
frame moves a prefix of the list. -/
def movePipesPrefix : ℕ → List PipeData → List PipeData
  | _, [] => []
  | 0, p :: rest => p :: rest
  | k + 1, p :: rest => { p with x := p.x - PIPE_SPEED } :: movePipesPrefix k rest

/-- Lines 486-489: the passed-flag update of one frame. -/
def scorePipes (l : List PipeData) : List PipeData :=
  l.map fun p =>
    if p.passed = false ∧ p.x + PIPE_WIDTH < birdX - HITBOX_WIDTH / 2 then
      { p with passed := true }
    else p

/-- Lines 493-495: the head pipe, and only the head pipe, is removed
once its x has moved past -100. -/
def cleanupPipes (l : List PipeData) : List PipeData :=
  match l with
  | [] => []
  | p :: rest => if p.x < -100 then rest else p :: rest

inductive SyncEvent where
  | spawn (g : ℚ)
  | deliver
  | move (sd : Side) (k : ℕ)
  | score (sd : Side)
  | cleanup (sd : Side)

def syncStep (e : SyncEvent) (s : SyncSys) : SyncSys :=
  match e with
  | SyncEvent.spawn g => spawnPipe g s
  | SyncEvent.deliver => deliverPipe s
  | SyncEvent.move sd k => setPipes sd s (movePipesPrefix k (pipesOf sd s))
  | SyncEvent.score sd => setPipes sd s (scorePipes (pipesOf sd s))
  | SyncEvent.cleanup sd => setPipes sd s (cleanupPipes (pipesOf sd s))

def initSync : SyncSys :=
  { hostPipes := [], pipeIdCounter := 0, queue := [], clientPipes := [] }

inductive SyncReach : SyncSys → Prop
  | init : SyncReach initSync
  | step (e : SyncEvent) {s : SyncSys} : SyncReach s → SyncReach (syncStep e s)

/-- Ids strictly increase and x is non-decreasing from front to back. -/
def pipesOrdered (l : List PipeData) : Prop :=
  l.Pairwise (fun p q => p.id < q.id) ∧ l.Pairwise (fun p q => p.x ≤ q.x)

/-- Every pipe sits at or left of the right edge and its id is below the
counter. -/
def pipesBounded (l : List PipeData) (c : ℕ) : Prop :=
  (∀ p ∈ l, p.x ≤ LOGICAL_WIDTH) ∧ (∀ p ∈ l, p.id < c)

def syncInv (s : SyncSys) : Prop :=
  pipesOrdered s.hostPipes ∧ pipesBounded s.hostPipes s.pipeIdCounter ∧
  pipesOrdered s.clientPipes ∧ pipesBounded s.clientPipes s.pipeIdCounter ∧
  s.queue.Pairwise (fun a b => a.2 < b.2) ∧
  (∀ q ∈ s.queue, q.2 < s.pipeIdCounter) ∧
  (∀ p ∈ s.clientPipes, ∀ q ∈ s.queue, p.id < q.2)

theorem movePipesPrefix_mem {k : ℕ} {l : List PipeData} {q : PipeData}
    (h : q ∈ movePipesPrefix k l) :
    ∃ q₀ ∈ l, q.id = q₀.id ∧ q₀.x - PIPE_SPEED ≤ q.x ∧ q.x ≤ q₀.x := by
  induction l generalizing k with
  | nil => simp [movePipesPrefix] at h
  | cons p rest ih =>
      cases k with
      | zero =>
          simp only [movePipesPrefix] at h
          exact ⟨q, h, rfl, by norm_num [PIPE_SPEED], le_refl _⟩
      | succ k' =>
          simp only [movePipesPrefix] at h
          rcases List.mem_cons.mp h with h | h
          · subst h
            exact ⟨p, List.mem_cons_self _ _, rfl, le_refl _,
              by norm_num [PIPE_SPEED]⟩
          · obtain ⟨q₀, hq₀, hid, hlo, hhi⟩ := ih h
            exact ⟨q₀, List.mem_cons_of_mem _ hq₀, hid, hlo, hhi⟩

theorem movePipesPrefix_ordered {k : ℕ} {l : List PipeData}
    (h : pipesOrdered l) : pipesOrdered (movePipesPrefix k l) := by
  induction l generalizing k with
  | nil => simpa [movePipesPrefix] using h
  | cons p rest ih =>
      cases k with
      | zero => exact h
      | succ k' =>
          obtain ⟨hid, hx⟩ := h
          rw [List.pairwise_cons] at hid hx
          obtain ⟨hres_id, hres_x⟩ := ih ⟨hid.2, hx.2⟩
          constructor
          · rw [movePipesPrefix, List.pairwise_cons]
            refine ⟨fun q hq => ?_, hres_id⟩
            obtain ⟨q₀, hq₀, hid', _, _⟩ := movePipesPrefix_mem hq
            rw [hid']
            exact hid.1 q₀ hq₀
          · rw [movePipesPrefix, List.pairwise_cons]
            refine ⟨fun q hq => ?_, hres_x⟩
            obtain ⟨q₀, hq₀, _, hlo, _⟩ := movePipesPrefix_mem hq
            have := hx.1 q₀ hq₀
            simp only
            linarith

theorem movePipesPrefix_bounded {k : ℕ} {l : List PipeData} {c : ℕ}
    (h : pipesBounded l c) : pipesBounded (movePipesPrefix k l) c := by
  constructor
  · intro p hp
    obtain ⟨q₀, hq₀, _, _, hhi⟩ := movePipesPrefix_mem hp
    exact le_trans hhi (h.1 q₀ hq₀)
  · intro p hp
    obtain ⟨q₀, hq₀, hid, _, _⟩ := movePipesPrefix_mem hp
    rw [hid]
    exact h.2 q₀ hq₀

theorem scoreF_id (p : PipeData) :
    (if p.passed = false ∧ p.x + PIPE_WIDTH < birdX - HITBOX_WIDTH / 2 then
      { p with passed := true } else p).id = p.id := by
  split_ifs <;> rfl

theorem scoreF_x (p : PipeData) :
    (if p.passed = false ∧ p.x + PIPE_WIDTH < birdX - HITBOX_WIDTH / 2 then
      { p with passed := true } else p).x = p.x := by
  split_ifs <;> rfl

theorem scorePipes_ordered {l : List PipeData} (h : pipesOrdered l) :
    pipesOrdered (scorePipes l) := by
  constructor
  · rw [scorePipes, List.pairwise_map]
    exact h.1.imp fun hab => by simpa only [scoreF_id] using hab
  · rw [scorePipes, List.pairwise_map]
    exact h.2.imp fun hab => by simpa only [scoreF_x] using hab

theorem scorePipes_bounded {l : List PipeData} {c : ℕ} (h : pipesBounded l c) :
    pipesBounded (scorePipes l) c := by
  constructor <;> intro p hp <;>
    obtain ⟨q, hq, rfl⟩ := List.mem_map.mp (by simpa [scorePipes] using hp)
  · rw [scoreF_x]
    exact h.1 q hq
  · rw [scoreF_id]
    exact h.2 q hq

theorem scorePipes_id_image {l : List PipeData} {p : PipeData}
    (hp : p ∈ scorePipes l) : ∃ q ∈ l, p.id = q.id := by
  obtain ⟨q, hq, rfl⟩ := List.mem_map.mp (by simpa [scorePipes] using hp)
  exact ⟨q, hq, scoreF_id q⟩

theorem cleanupPipes_subset {l : List PipeData} {p : PipeData}
    (hp : p ∈ cleanupPipes l) : p ∈ l := by
  cases l with
  | nil => simpa [cleanupPipes] using hp
  | cons q rest =>
      by_cases hq : q.x < -100
      · simp only [cleanupPipes, if_pos hq] at hp
        exact List.mem_cons_of_mem _ hp
      · simpa [cleanupPipes, hq] using hp

theorem cleanupPipes_ordered {l : List PipeData} (h : pipesOrdered l) :
    pipesOrdered (cleanupPipes l) := by
  cases l with
  | nil => simpa [cleanupPipes] using h
  | cons q rest =>
      by_cases hq : q.x < -100
      · simp only [cleanupPipes, if_pos hq]
        exact ⟨h.1.of_cons, h.2.of_cons⟩
      · simpa [cleanupPipes, hq] using h

theorem cleanupPipes_bounded {l : List PipeData} {c : ℕ} (h : pipesBounded l c) :
    pipesBounded (cleanupPipes l) c :=
  ⟨fun p hp => h.1 p (cleanupPipes_subset hp),
   fun p hp => h.2 p (cleanupPipes_subset hp)⟩

theorem syncInv_spawn {s : SyncSys} (g : ℚ) (h : syncInv s) :
    syncInv (spawnPipe g s) := by
  obtain ⟨⟨hhid, hhx⟩, ⟨hhxb, hhib⟩, hcord, ⟨hcxb, hcib⟩, hq, hqb, hcq⟩ := h
  refine ⟨⟨?_, ?_⟩, ⟨?_, ?_⟩, hcord, ⟨hcxb, fun p hp => Nat.lt_succ_of_lt (hcib p hp)⟩,
    ?_, ?_, ?_⟩
  · refine List.pairwise_append.mpr ⟨hhid, by simp, ?_⟩
    intro a ha b hb
    rw [List.mem_singleton.mp hb]
    exact hhib a ha
  · refine List.pairwise_append.mpr ⟨hhx, by simp, ?_⟩
    intro a ha b hb
    rw [List.mem_singleton.mp hb]
    exact hhxb a ha
  · intro p hp
    rcases List.mem_append.mp hp with hp | hp
    · exact hhxb p hp
    · rw [List.mem_singleton.mp hp]
  · intro p hp
    rcases List.mem_append.mp hp with hp | hp
    · exact Nat.lt_succ_of_lt (hhib p hp)
    · rw [List.mem_singleton.mp hp]
      exact Nat.lt_succ_self _
  · refine List.pairwise_append.mpr ⟨hq, by simp, ?_⟩
    intro a ha b hb
    rw [List.mem_singleton.mp hb]
    exact hqb a ha
  · intro q hqm
    rcases List.mem_append.mp hqm with hqm | hqm
    · exact Nat.lt_succ_of_lt (hqb q hqm)
    · rw [List.mem_singleton.mp hqm]
      exact Nat.lt_succ_self _
  · intro p hp q hqm
    rcases List.mem_append.mp hqm with hqm | hqm
    · exact hcq p hp q hqm
    · rw [List.mem_singleton.mp hqm]
      exact hcib p hp

theorem syncInv_deliver {s : SyncSys} (h : syncInv s) :
    syncInv (deliverPipe s) := by
  obtain ⟨hhord, hhb, ⟨hcid, hcx⟩, ⟨hcxb, hcib⟩, hq, hqb, hcq⟩ := h
  rcases hqe : s.queue with _ | ⟨⟨g, i⟩, rest⟩
  · have : deliverPipe s = s := by rw [deliverPipe, hqe]
    rw [this]
    exact ⟨hhord, hhb, ⟨hcid, hcx⟩, ⟨hcxb, hcib⟩, hq, hqb, hcq⟩
  · have hstep : deliverPipe s =
        { s with
          queue := rest
          clientPipes := s.clientPipes ++
            [{ x := LOGICAL_WIDTH, y := g, passed := false, id := i }] } := by
      rw [deliverPipe, hqe]
    rw [hqe] at hq hqb hcq
    have hqc := List.pairwise_cons.mp hq
    rw [hstep]
    refine ⟨hhord, hhb, ⟨?_, ?_⟩, ⟨?_, ?_⟩, hqc.2, ?_, ?_⟩
    · refine List.pairwise_append.mpr ⟨hcid, by simp, ?_⟩
      intro a ha b hb
      rw [List.mem_singleton.mp hb]
      exact hcq a ha (g, i) (List.mem_cons_self _ _)
    · refine List.pairwise_append.mpr ⟨hcx, by simp, ?_⟩
      intro a ha b hb
      rw [List.mem_singleton.mp hb]
      exact hcxb a ha
    · intro p hp
      rcases List.mem_append.mp hp with hp | hp
      · exact hcxb p hp
      · rw [List.mem_singleton.mp hp]
    · intro p hp
      rcases List.mem_append.mp hp with hp | hp
      · exact hcib p hp
      · rw [List.mem_singleton.mp hp]
        exact hqb (g, i) (List.mem_cons_self _ _)
    · intro q hqm
      exact hqb q (List.mem_cons_of_mem _ hqm)
    · intro p hp q hqm
      rcases List.mem_append.mp hp with hp | hp
      · exact hcq p hp q (List.mem_cons_of_mem _ hqm)
      · rw [List.mem_singleton.mp hp]
        exact hqc.1 q hqm

theorem syncInv_move {s : SyncSys} (sd : Side) (k : ℕ) (h : syncInv s) :
    syncInv (setPipes sd s (movePipesPrefix k (pipesOf sd s))) := by
  obtain ⟨hhord, hhb, hcord, hcb, hq, hqb, hcq⟩ := h
  cases sd
  · exact ⟨movePipesPrefix_ordered hhord, movePipesPrefix_bounded hhb,
      hcord, hcb, hq, hqb, hcq⟩
  · refine ⟨hhord, hhb, movePipesPrefix_ordered hcord,
      movePipesPrefix_bounded hcb, hq, hqb, ?_⟩
    intro p hp q hqm
    obtain ⟨q₀, hq₀, hid, _, _⟩ := movePipesPrefix_mem hp
    rw [hid]
    exact hcq q₀ hq₀ q hqm

theorem syncInv_score {s : SyncSys} (sd : Side) (h : syncInv s) :
    syncInv (setPipes sd s (scorePipes (pipesOf sd s))) := by
  obtain ⟨hhord, hhb, hcord, hcb, hq, hqb, hcq⟩ := h
  cases sd
  · exact ⟨scorePipes_ordered hhord, scorePipes_bounded hhb,
      hcord, hcb, hq, hqb, hcq⟩
  · refine ⟨hhord, hhb, scorePipes_ordered hcord, scorePipes_bounded hcb,
      hq, hqb, ?_⟩
    intro p hp q hqm
    obtain ⟨q₀, hq₀, hid⟩ := scorePipes_id_image hp
    rw [hid]
    exact hcq q₀ hq₀ q hqm

theorem syncInv_cleanup {s : SyncSys} (sd : Side) (h : syncInv s) :
    syncInv (setPipes sd s (cleanupPipes (pipesOf sd s))) := by
  obtain ⟨hhord, hhb, hcord, hcb, hq, hqb, hcq⟩ := h
  cases sd
  · exact ⟨cleanupPipes_ordered hhord, cleanupPipes_bounded hhb,
      hcord, hcb, hq, hqb, hcq⟩
  · exact ⟨hhord, hhb, cleanupPipes_ordered hcord, cleanupPipes_bounded hcb,
      hq, hqb, fun p hp q hqm => hcq p (cleanupPipes_subset hp) q hqm⟩

theorem syncReach_inv {s : SyncSys} (h : SyncReach s) : syncInv s := by
  induction h with
  | init =>
      refine ⟨⟨?_, ?_⟩, ⟨?_, ?_⟩, ⟨?_, ?_⟩, ⟨?_, ?_⟩, ?_, ?_, ?_⟩ <;>
        simp [initSync]
  | step e hs ih =>
      cases e with
      | spawn g => exact syncInv_spawn g ih
      | deliver => exact syncInv_deliver ih
      | move sd k => exact syncInv_move sd k ih
      | score sd => exact syncInv_score sd ih
      | cleanup sd => exact syncInv_cleanup sd ih

theorem cleanupPipes_cases (l : List PipeData) :
    cleanupPipes l = l ∨
      ∃ p rest, l = p :: rest ∧ p.x < -100 ∧ p.x + PIPE_WIDTH < 0 ∧
        cleanupPipes l = rest := by
  cases l with
  | nil => exact Or.inl rfl
  | cons p rest =>
      by_cases hp : p.x < -100
      · refine Or.inr ⟨p, rest, rfl, hp, ?_, by simp [cleanupPipes, hp]⟩
        simp only [PIPE_WIDTH]
        linarith
      · exact Or.inl (by simp [cleanupPipes, hp])

theorem offscreen_head {l : List PipeData}
    (hx : l.Pairwise (fun p q => p.x ≤ q.x)) {p : PipeData}
    (hp : p ∈ l) (hoff : p.x < -100) :
    ∃ hd rest, l = hd :: rest ∧ hd.x < -100 := by
  cases l with
  | nil => cases hp
  | cons hd rest =>
      refine ⟨hd, rest, rfl, ?_⟩
      rcases List.mem_cons.mp hp with h | h
      · rw [← h]
        exact hoff
      · have := (List.pairwise_cons.mp hx).1 p h
        linarith

/-- C7: in every reachable state, on both sides, the pipe list is
oldest-first: ids strictly increase and x is non-decreasing from front
to back; the cleanup operation either leaves the list unchanged or
removes exactly the head, and only when the head is past x = -100, hence
fully off-screen (trailing edge left of 0); and whenever any pipe in the
list is past the removal threshold, the head is too, so head-only
removal never strands an off-screen pipe behind an on-screen one. -/
theorem pipe_list_fifo (s : SyncSys) (h : SyncReach s) (sd : Side) :
    (pipesOf sd s).Pairwise (fun p q => p.id < q.id) ∧
    (pipesOf sd s).Pairwise (fun p q => p.x ≤ q.x) ∧
    (cleanupPipes (pipesOf sd s) = pipesOf sd s ∨
      ∃ p rest, pipesOf sd s = p :: rest ∧ p.x < -100 ∧
        p.x + PIPE_WIDTH < 0 ∧ cleanupPipes (pipesOf sd s) = rest) ∧
    (∀ p ∈ pipesOf sd s, p.x < -100 →
      ∃ hd rest, pipesOf sd s = hd :: rest ∧ hd.x < -100) := by
  have hinv := syncReach_inv h
  obtain ⟨hhord, _, hcord, _, _, _, _⟩ := hinv
  have hord : pipesOrdered (pipesOf sd s) := by
    cases sd
    · exact hhord
    · exact hcord
  exact ⟨hord.1, hord.2, cleanupPipes_cases _,
    fun p hp hoff => offscreen_head hord.2 hp hoff⟩

/-- A concrete reachable two-sided state: one pipe spawned by the host
and its PIPE message delivered to the client. -/
def sampleSync : SyncSys :=
  syncStep SyncEvent.deliver (syncStep (SyncEvent.spawn 300) initSync)

/-- Witness for C7 at a concrete reachable state, host side. -/
theorem pipe_list_fifo_witness :
    (pipesOf Side.host sampleSync).Pairwise (fun p q => p.id < q.id) ∧
    (pipesOf Side.host sampleSync).Pairwise (fun p q => p.x ≤ q.x) ∧
    (cleanupPipes (pipesOf Side.host sampleSync) = pipesOf Side.host sampleSync ∨
      ∃ p rest, pipesOf Side.host sampleSync = p :: rest ∧ p.x < -100 ∧
        p.x + PIPE_WIDTH < 0 ∧ cleanupPipes (pipesOf Side.host sampleSync) = rest) ∧
    (∀ p ∈ pipesOf Side.host sampleSync, p.x < -100 →
      ∃ hd rest, pipesOf Side.host sampleSync = hd :: rest ∧ hd.x < -100) :=
  pipe_list_fifo sampleSync
    (SyncReach.step SyncEvent.deliver
      (SyncReach.step (SyncEvent.spawn 300) SyncReach.init))
    Side.host

/-! ### Room code generation (line 251) and join normalization (line 298)

Line 251: Math.random().toString(36).substr(2, 4).toUpperCase().
Math.random() returns a double in the interval from 0 (inclusive) to 1
(exclusive); doubles are dyadic rationals, and since 2 divides 36 their
base-36 fractional expansion terminates, so Number.toString(36) renders
such a value as the character 0, then a dot, then the terminating
base-36 digit sequence of the fractional part; the value 0 itself
renders as just the character 0.  A double has at most 1074 fractional
bits, so 1100 units of fuel cover every digit sequence. -/

def base36DigitChar (d : ℕ) : Char :=
  if d < 10 then Char.ofNat (48 + d) else Char.ofNat (87 + d)

/-- Successive base-36 digits of the fraction num / den: each step
emits floor of 36 times the remaining fraction and keeps the remainder,
stopping when the remainder is zero. -/
def digits36Aux : ℕ → ℕ → ℕ → List ℕ
  | 0, _, _ => []
  | fuel + 1, num, den =>
      if num = 0 then []
      else (num * 36 / den) :: digits36Aux fuel (num * 36 % den) den

def jsToString36 (r : ℚ) : String :=
  if r = 0 then "0"
  else
    String.mk ('0' :: '.' ::
      (digits36Aux 1100 r.num.toNat r.den).map base36DigitChar)

/-- JS String.prototype.substr with a non-negative start index. -/
def jsSubstr (s : String) (start len : ℕ) : String :=
  String.mk ((s.toList.drop start).take len)

/-- JS String.prototype.toUpperCase maps each character to its upper
case. -/
def jsToUpper (s : String) : String :=
  String.mk (s.toList.map Char.toUpper)

/-- Line 251: the room code is derived from one Math.random() draw. -/
def generateRoomCode (r : ℚ) : String :=
  jsToUpper (jsSubstr (jsToString36 r) 2 4)

/-- Line 298: the CLIENT connects to the uppercased entered code. -/
def joinConnectArg (hostId : String) : String := jsToUpper hostId

/-- C8 evaluation at the failing inputs: the random draw 0 produces the
empty room code and the draw one half (base-36 expansion a single digit
i) produces the one-character code I, while the claim requires every
generated code to have exactly 4 characters; the uppercase normalization
of the client-entered code does hold. -/
theorem roomCode_short_at_failing_input :
    generateRoomCode 0 = "" ∧ (generateRoomCode 0).length = 0 ∧
    generateRoomCode (mkRat 1 2) = "I" ∧
    (generateRoomCode (mkRat 1 2)).length = 1 ∧
    generateRoomCode (mkRat 49360 1679616) = "1234" ∧
    joinConnectArg "ab1c" = "AB1C" := by
  refine ⟨by decide, by decide, by decide, by decide, by decide, by decide⟩

end FlappyLink
